import Mathlib

/-!
Shallow embedding of the real-time market-data distribution engine
(`backend/websocket_manager.py`, class `PriceWebSocketManager`).

Conventions of the embedding:
* Python floats become exact rationals `ℚ`; `round(x, 2)` becomes `round2`.
* The price cache (`Dict[str, dict]`) becomes an association list with
  Python-dict update semantics (`dictInsert` replaces in place, else appends).
* Downstream connections are identified by natural numbers; whether a given
  connection's `send_json` raises in the current call is modelled by a
  `failing : List ℕ` parameter (the set of connection ids whose send fails).
* `await`/exception control flow becomes explicit: a caught exception is a
  branch that returns the unchanged state, mirroring `try/except` blocks.
* Nondeterministic inputs (the wall-clock timestamp) are passed as parameters.
-/

namespace AstraTrade

/-- Rounding to two decimal places, the embedding of Python `round(x, 2)`
(Python breaks exact half-cent ties to even; no statement here depends on
the tie-breaking direction). -/
def round2 (x : ℚ) : ℚ := ((⌊x * 100 + 1 / 2⌋ : ℤ) : ℚ) / 100

/-- One price tick, the embedding of the `price_update` dict built in
`_handle_upstox_binary`.  `close_price` is `getattr(..., 'cp', None)`:
`none` models a missing attribute, `some 0` the proto3 default for an
unset scalar field (both are falsy in the Python guard). -/
structure Tick where
  last_price : ℚ
  volume : ℕ
  close_price : Option ℚ
  open_price : ℚ
  timestamp : ℕ
  change_percent : ℚ
deriving DecidableEq

/-- The price cache: `Dict[str, dict]` as an association list. -/
abbrev Cache := List (String × Tick)

/-- Embedding of Python `dict.get` / `dict[k]` lookup (first matching key). -/
def dictGet : Cache → String → Option Tick
  | [], _ => none
  | (k', v) :: d, k => if k' = k then some v else dictGet d k

/-- Embedding of Python `k in dict`. -/
def dictContains (d : Cache) (k : String) : Bool := (dictGet d k).isSome

/-- Embedding of Python `dict[k] = v`: replace the value at an existing key
in place, otherwise append a new entry (insertion order preserved). -/
def dictInsert : Cache → String → Tick → Cache
  | [], k, v => [(k, v)]
  | (k', w) :: d, k, v =>
    if k' = k then (k, v) :: d else (k', w) :: dictInsert d k v

/-- The keys of a cache, in insertion order. -/
def cacheKeys (d : Cache) : List String := d.map Prod.fst

/-- The mutable state of `PriceWebSocketManager`.  `subscribed_instruments`
is Python's `Set[str]`; it is kept as a duplicate-free list (inserts check
membership first).  `ws_present` models `self.ws is not None`. -/
structure EngineState where
  active_connections : List ℕ
  subscribed_instruments : List String
  price_cache : Cache
  upstox_connected : Bool
  ws_present : Bool
deriving DecidableEq

/-- A per-instrument feed record inside a decoded `FeedResponse`, the tagged
union over the variants inspected by `_handle_upstox_binary`:
a compact `ltpc` quote, a `fullFeed` whose `marketFF` may or may not carry
an `ltpc`, or any other variant. -/
inductive FeedRecord where
  | ltpcRec (ltp : ℚ) (ltq : ℕ) (cp : Option ℚ)
  | fullRec (hasMarketLtpc : Bool) (ltp : ℚ) (ltq : ℕ) (cp : Option ℚ)
  | otherRec
deriving DecidableEq

/-- Embedding of the `if feed.HasField("ltpc") ... elif feed.HasField("fullFeed")
... else continue` ladder: extract `(ltp, volume, close_price)` or skip the
record (`none` models reaching a `continue`, including the `ltp is None` guard). -/
def extractQuote : FeedRecord → Option (ℚ × ℕ × Option ℚ)
  | .ltpcRec ltp ltq cp => some (ltp, ltq, cp)
  | .fullRec true ltp ltq cp => some (ltp, ltq, cp)
  | .fullRec false _ _ _ => none
  | .otherRec => none

/-- The Python guard `if close_price and close_price != 0` (`None` and `0.0`
are both falsy, so the two tests coincide on `some 0`). -/
def cpUsable : Option ℚ → Bool
  | none => false
  | some c => c != 0

/-- An inbound binary frame, abstracting `FeedResponse.ParseFromString`:
either the parse raises (malformed) or yields the `feeds` mapping as an
ordered list of `(instrument_key, record)` pairs. -/
inductive Frame where
  | malformed
  | parsed (feeds : List (String × FeedRecord))

/-- The `for connection in self.active_connections` send loop of
`broadcast_price_update`: accumulates `(delivered, disconnected)` in
iteration order; a failing send appends to `disconnected`, a successful
send delivers. -/
def fanOut (conns : List ℕ) (failing : List ℕ) : List ℕ × List ℕ :=
  conns.foldl
    (fun (acc : List ℕ × List ℕ) c =>
      if c ∈ failing then (acc.1, acc.2 ++ [c]) else (acc.1 ++ [c], acc.2))
    ([], [])

/-- Embedding of `broadcast_price_update`: write the tick to the cache, send
to every connection collecting the ones that raised, then `disconnect` each
of those (`list.remove` = erase first occurrence, a no-op when absent).
Returns the new state and the list of connections actually delivered to. -/
def broadcastPriceUpdate (s : EngineState) (key : String) (tick : Tick)
    (failing : List ℕ) : EngineState × List ℕ :=
  let s1 := { s with price_cache := dictInsert s.price_cache key tick }
  let r := fanOut s1.active_connections failing
  let pruned := r.2.foldl (fun conns c => conns.erase c) s1.active_connections
  let s2 := { s1 with active_connections := pruned }
  (s2, r.1)

/-- Embedding of `broadcast_status`: send the status payload to every
connection, swallowing per-connection failures (`except Exception: pass`);
the state is untouched.  Returns the state and the delivered connections. -/
def broadcastStatus (s : EngineState) (status message : String)
    (failing : List ℕ) : EngineState × List ℕ :=
  (s, s.active_connections.filter (fun c => decide (c ∉ failing)))

/-- Embedding of `_send_subscription`: returns the `instrumentKeys` list of
the payload written to the upstream socket, or `none` when nothing is sent
(not connected, or the key list is empty).  `none` for the argument models
the Python default `instrument_keys=None`. -/
def sendSubscriptionPayload (s : EngineState) (keys? : Option (List String)) :
    Option (List String) :=
  if !(s.ws_present && s.upstox_connected) then none
  else
    let keys := keys?.getD s.subscribed_instruments
    if keys.isEmpty then none else some keys

/-- One step of the `for key in instrument_keys` loop of `subscribe`:
the accumulator is `(subscribed_instruments, new_keys)`. -/
def subAdd (acc : List String × List String) (key : String) :
    List String × List String :=
  if key ∈ acc.1 then acc else (acc.1 ++ [key], acc.2 ++ [key])

/-- Embedding of `subscribe`: fold the loop, then push only the newly added
keys upstream when some exist and the session is streaming.  Returns the new
state, the `new_keys` list the call computed, and the upstream payload sent
(`none` when no push happened). -/
def subscribeStep (s : EngineState) (instrument_keys : List String) :
    EngineState × List String × Option (List String) :=
  let acc := instrument_keys.foldl subAdd (s.subscribed_instruments, [])
  let s1 := { s with subscribed_instruments := acc.1 }
  let push :=
    if !acc.2.isEmpty && s1.ws_present && s1.upstox_connected then
      sendSubscriptionPayload s1 (some acc.2)
    else none
  (s1, acc.2, push)

/-- The value a call to `subscribe` evaluates to for its caller: the
function body (lines 41-54) has no `return` statement, so every call —
whatever the state and arguments — returns Python `None` (`none` here;
`some keys` would model returning a list of instrument keys, which the
source never does). -/
def subscribeReturn (s : EngineState) (instrument_keys : List String) :
    Option (List String) :=
  none

/-- Embedding of the success path of STEP B in `connect_upstox_feed`
(lines after `websockets.connect` succeeds): set the session handle and the
connected flag, broadcast the `connected` status, and re-send the whole
current subscription set if non-empty.  Returns the new state, the status
broadcasts made, and the list of subscription pushes sent upstream. -/
def onConnectSuccess (s : EngineState) :
    EngineState × List (String × String) × List (List String) :=
  let s1 := { s with ws_present := true, upstox_connected := true }
  let statusEvents := [("connected", "Connected to live NSE market")]
  let pushes :=
    if s1.subscribed_instruments.isEmpty then []
    else
      match sendSubscriptionPayload s1 (some s1.subscribed_instruments) with
      | some ks => [ks]
      | none => []
  (s1, statusEvents, pushes)

/-- The observable outcome of one failed cycle of the `while True` loop in
`connect_upstox_feed`: which status broadcasts were made and how long the
loop sleeps before retrying. -/
structure CycleOutcome where
  statusEvents : List (String × String)
  sleepSeconds : ℕ
deriving DecidableEq

/-- The failure modes of one cycle of `connect_upstox_feed`. -/
inductive CycleFailure where
  | tokenAbsent
  | authRejected401
  | authHttpError (code : ℕ)
  | transientException
deriving DecidableEq

/-- Embedding of the error paths of `connect_upstox_feed`, one cycle:
no token → wait 30 s silently and retry; HTTP 401 from the authorize call →
broadcast an `error` status and wait 60 s (`continue` skips the generic
cleanup); any other non-200 authorize status raises, and that exception —
like every other transient failure — is caught by the outer handler, which
broadcasts `disconnected` and waits 5 s. -/
def cycleFailureOutcome : CycleFailure → CycleOutcome
  | .tokenAbsent => ⟨[], 30⟩
  | .authRejected401 =>
      ⟨[("error", "Market feed auth expired. Please re-login with Upstox.")], 60⟩
  | .authHttpError _ =>
      ⟨[("disconnected", "Market feed disconnected - retrying...")], 5⟩
  | .transientException =>
      ⟨[("disconnected", "Market feed disconnected - retrying...")], 5⟩

/-- Embedding of the per-record body of `_handle_upstox_binary`'s loop up to
the construction of the `price_update` dict: `none` when the record is
skipped by a `continue`. -/
def decodeTick (cache : Cache) (ts : ℕ) (rec : FeedRecord) (key : String) :
    Option Tick :=
  match extractQuote rec with
  | none => none
  | some (ltp, ltq, cp) =>
    let change_percent : ℚ :=
      if cpUsable cp then round2 ((ltp - cp.getD 0) / cp.getD 0 * 100)
      else
        match dictGet cache key with
        | some old =>
            if old.open_price ≠ 0 then
              round2 ((ltp - old.open_price) / old.open_price * 100)
            else 0
        | none => 0
    let is_first := !(dictContains cache key)
    let open_price :=
      if is_first then ltp
      else ((dictGet cache key).map Tick.open_price).getD ltp
    some { last_price := ltp, volume := ltq, close_price := cp,
           open_price := open_price, timestamp := ts,
           change_percent := change_percent }

/-- One iteration of `_handle_upstox_binary`'s record loop: decode the
record and, when it yields a tick, broadcast it (which also writes the
cache).  A skipped record leaves the state untouched. -/
def processRecord (s : EngineState) (failing : List ℕ) (ts : ℕ)
    (key : String) (rec : FeedRecord) : EngineState × Option Tick :=
  match decodeTick s.price_cache ts rec key with
  | none => (s, none)
  | some t => ((broadcastPriceUpdate s key t failing).1, some t)

/-- The full record loop of `_handle_upstox_binary` over the decoded
`feeds` mapping, threading the state and collecting the emitted ticks. -/
def handleFeeds (failing : List ℕ) (ts : ℕ) :
    EngineState → List (String × FeedRecord) →
    EngineState × List (String × Tick)
  | s, [] => (s, [])
  | s, (k, r) :: rest =>
    let step := processRecord s failing ts k r
    let tail := handleFeeds failing ts step.1 rest
    (tail.1, (step.2.map (fun t => (k, t))).toList ++ tail.2)

/-- The body of `_handle_upstox_binary` before its `try/except`:
a parse failure raises. -/
def handleBinaryTry (s : EngineState) (failing : List ℕ) (ts : ℕ) :
    Frame → Except String (EngineState × List (String × Tick))
  | .malformed => .error "ParseFromString failed"
  | .parsed feeds => .ok (handleFeeds failing ts s feeds)

/-- Embedding of `_handle_upstox_binary` with its enclosing `try/except`:
any exception is caught and logged, leaving the state unchanged and
emitting nothing — nothing propagates to the read loop. -/
def handleUpstoxBinary (s : EngineState) (failing : List ℕ) (ts : ℕ)
    (frame : Frame) : EngineState × List (String × Tick) :=
  match handleBinaryTry s failing ts frame with
  | .ok r => r
  | .error _ => (s, [])

/-- Applying a sequence of decoded ticks to the engine through
`broadcast_price_update`, in arrival order. -/
def runBroadcasts (failing : List ℕ) :
    EngineState → List (String × Tick) → EngineState
  | s, [] => s
  | s, (k, v) :: ws => runBroadcasts failing (broadcastPriceUpdate s k v failing).1 ws

/-- The most recent value written for a key by a sequence of writes, if any
(the specification-side notion "most recently decoded tick for that key"). -/
def lastValue : List (String × Tick) → String → Option Tick
  | [], _ => none
  | (k', v) :: ws, k =>
    match lastValue ws k with
    | some v' => some v'
    | none => if k' = k then some v else none

/-- A fresh engine state, as built by `PriceWebSocketManager.__init__`. -/
def initState : EngineState :=
  { active_connections := []
    subscribed_instruments := []
    price_cache := []
    upstox_connected := false
    ws_present := false }

/-- The three-tick change-percent scenario of the specification for
instrument `X`: last 100 with no reference price, last 105 with reference
102, last 98 with no reference price. -/
def scenarioRecs : List (String × FeedRecord) :=
  [("X", .ltpcRec 100 0 none),
   ("X", .ltpcRec 105 0 (some 102)),
   ("X", .ltpcRec 98 0 none)]

/-- A state with one subscribed instrument and a live session, used to
instantiate universally quantified theorems at a concrete input. -/
def sLive : EngineState :=
  { active_connections := [1, 2]
    subscribed_instruments := ["NSE_INDEX|Nifty 50"]
    price_cache := []
    upstox_connected := true
    ws_present := true }

/-- A concrete tick value used to instantiate universally quantified
theorems at a concrete input. -/
def tickA : Tick :=
  { last_price := 100, volume := 0, close_price := none,
    open_price := 100, timestamp := 0, change_percent := 0 }

section Lemmas

theorem dictGet_dictInsert (c : Cache) (k k' : String) (v : Tick) :
    dictGet (dictInsert c k v) k' = if k = k' then some v else dictGet c k' := by
  induction c with
  | nil => by_cases hk : k = k' <;> simp [dictGet, dictInsert, hk]
  | cons p rest ih =>
    obtain ⟨a, b⟩ := p
    by_cases ha : a = k
    · subst ha
      by_cases hk : a = k' <;> simp [dictGet, dictInsert, hk]
    · by_cases hak : a = k'
      · subst hak
        have hk : ¬ k = a := fun h => ha h.symm
        simp [dictGet, dictInsert, ha, hk]
      · simp [dictGet, dictInsert, ha, hak, ih]

theorem dictGet_eq_none_iff (c : Cache) (k : String) :
    dictGet c k = none ↔ k ∉ cacheKeys c := by
  induction c with
  | nil => simp [dictGet, cacheKeys]
  | cons p rest ih =>
    obtain ⟨a, b⟩ := p
    by_cases ha : a = k
    · subst ha; simp [dictGet, cacheKeys]
    · have hk : ¬ k = a := fun h => ha h.symm
      simp [dictGet, cacheKeys, ha, hk, ih]

theorem cacheKeys_nil : cacheKeys [] = [] := rfl

theorem cacheKeys_cons (a : String) (b : Tick) (rest : Cache) :
    cacheKeys ((a, b) :: rest) = a :: cacheKeys rest := rfl

theorem cacheKeys_dictInsert (c : Cache) (k : String) (v : Tick) :
    cacheKeys (dictInsert c k v) =
      if k ∈ cacheKeys c then cacheKeys c else cacheKeys c ++ [k] := by
  induction c with
  | nil => simp [dictInsert, cacheKeys]
  | cons p rest ih =>
    obtain ⟨a, b⟩ := p
    by_cases ha : a = k
    · subst ha; simp [dictInsert, cacheKeys_cons]
    · have hk : ¬ k = a := fun h => ha h.symm
      by_cases hm : k ∈ cacheKeys rest <;>
        simp [dictInsert, cacheKeys_cons, ha, hk, hm, ih]

theorem nodup_cacheKeys_dictInsert (c : Cache) (k : String) (v : Tick)
    (h : (cacheKeys c).Nodup) : (cacheKeys (dictInsert c k v)).Nodup := by
  rw [cacheKeys_dictInsert]
  by_cases hm : k ∈ cacheKeys c
  · simpa [hm] using h
  · simp [hm, List.nodup_append, h]

theorem fanOut_eq_filter (conns failing : List ℕ) :
    fanOut conns failing =
      (conns.filter (fun c => decide (c ∉ failing)),
       conns.filter (fun c => decide (c ∈ failing))) := by
  suffices h : ∀ d x,
      conns.foldl
        (fun (acc : List ℕ × List ℕ) c =>
          if c ∈ failing then (acc.1, acc.2 ++ [c])
          else (acc.1 ++ [c], acc.2)) (d, x) =
      (d ++ conns.filter (fun c => decide (c ∉ failing)),
       x ++ conns.filter (fun c => decide (c ∈ failing))) by
    simpa [fanOut] using h [] []
  induction conns with
  | nil => simp
  | cons a rest ih =>
    intro d x
    by_cases h : a ∈ failing <;>
      simp [h, List.filter_cons, ih, List.append_assoc]

theorem count_foldl_erase (ds : List ℕ) :
    ∀ (l : List ℕ) (c : ℕ),
      (ds.foldl (fun conns x => conns.erase x) l).count c =
        l.count c - ds.count c := by
  induction ds with
  | nil => simp
  | cons d rest ih =>
    intro l c
    rw [List.foldl_cons, ih, List.count_erase, List.count_cons]
    by_cases h : d = c
    · subst h; simp; omega
    · simp [h, fun hc : c = d => h hc.symm]

theorem foldl_subAdd_mem (keys : List String) :
    ∀ (subs nk : List String) (k : String),
      (k ∈ (keys.foldl subAdd (subs, nk)).1 ↔ k ∈ subs ∨ k ∈ keys) ∧
      (k ∈ (keys.foldl subAdd (subs, nk)).2 ↔
        k ∈ nk ∨ (k ∈ keys ∧ k ∉ subs)) := by
  induction keys with
  | nil => intro subs nk k; simp
  | cons a rest ih =>
    intro subs nk k
    simp only [List.foldl_cons, List.mem_cons]
    by_cases h : a ∈ subs
    · simp only [subAdd, if_pos h]
      refine ⟨?_, ?_⟩
      · rw [(ih subs nk k).1]
        by_cases hk : k = a
        · subst hk; tauto
        · tauto
      · rw [(ih subs nk k).2]
        by_cases hk : k = a
        · subst hk; tauto
        · tauto
    · simp only [subAdd, if_neg h]
      refine ⟨?_, ?_⟩
      · rw [(ih (subs ++ [a]) (nk ++ [a]) k).1]
        simp only [List.mem_append, List.mem_singleton]
        by_cases hk : k = a
        · subst hk; tauto
        · tauto
      · rw [(ih (subs ++ [a]) (nk ++ [a]) k).2]
        simp only [List.mem_append, List.mem_singleton]
        by_cases hk : k = a
        · subst hk; tauto
        · tauto

theorem broadcastPriceUpdate_cache (s : EngineState) (key : String)
    (tick : Tick) (failing : List ℕ) :
    (broadcastPriceUpdate s key tick failing).1.price_cache =
      dictInsert s.price_cache key tick := rfl

end Lemmas

/-- C1: for every decoded feed record, the tick's change-percent equals
`round2 ((last − reference) / reference × 100)` when the record carries a
usable (non-zero) reference/close price; otherwise it is computed against
the recorded session-open price — the first price ever observed for the
instrument (zero on the very first tick, whose open price is the last
price itself).  Concretely, the three-tick sequence (last=100 no
reference; last=105 reference=102; last=98 no reference) produces
change-percents 0, 2.94 and −2.00 with open_price staying 100. -/
theorem change_percent_rule :
    (∀ (cache : Cache) (ts ltq : ℕ) (key : String) (rec : FeedRecord)
        (ltp c : ℚ), extractQuote rec = some (ltp, ltq, some c) → c ≠ 0 →
        ∃ t, decodeTick cache ts rec key = some t ∧
          t.change_percent = round2 ((ltp - c) / c * 100)) ∧
    (∀ (cache : Cache) (ts ltq : ℕ) (key : String) (rec : FeedRecord)
        (ltp : ℚ) (cp : Option ℚ) (old : Tick),
        extractQuote rec = some (ltp, ltq, cp) → cpUsable cp = false →
        dictGet cache key = some old → old.open_price ≠ 0 →
        ∃ t, decodeTick cache ts rec key = some t ∧
          t.change_percent =
            round2 ((ltp - old.open_price) / old.open_price * 100) ∧
          t.open_price = old.open_price) ∧
    (∀ (cache : Cache) (ts ltq : ℕ) (key : String) (rec : FeedRecord)
        (ltp : ℚ) (cp : Option ℚ),
        extractQuote rec = some (ltp, ltq, cp) → cpUsable cp = false →
        dictGet cache key = none →
        ∃ t, decodeTick cache ts rec key = some t ∧
          t.change_percent = 0 ∧ t.open_price = ltp) ∧
    ((handleFeeds [] 0 initState scenarioRecs).2 =
      [("X", ⟨100, 0, none, 100, 0, 0⟩),
       ("X", ⟨105, 0, some 102, 100, 0, 147/50⟩),
       ("X", ⟨98, 0, none, 100, 0, -2⟩)]) := by
  refine ⟨?_, ?_, ?_, ?_⟩
  · intro cache ts ltq key rec ltp c hx hc
    have hcp : cpUsable (some c) = true := by simp [cpUsable, hc]
    simp only [decodeTick, hx, hcp, if_true]
    exact ⟨_, rfl, by simp⟩
  · intro cache ts ltq key rec ltp cp old hx hcp hold hopen
    have hcon : dictContains cache key = true := by
      simp [dictContains, hold]
    simp only [decodeTick, hx, hcp, hold, hcon, Bool.false_eq_true,
      if_false, Bool.not_true, if_pos hopen]
    exact ⟨_, rfl, by simp, by simp⟩
  · intro cache ts ltq key rec ltp cp hx hcp hget
    have hcon : dictContains cache key = false := by
      simp [dictContains, hget]
    simp only [decodeTick, hx, hcp, hget, hcon, Bool.false_eq_true,
      if_false, Bool.not_false, if_true]
    exact ⟨_, rfl, by simp, by simp⟩
  · norm_num [handleFeeds, processRecord, decodeTick, extractQuote, cpUsable,
      dictGet, dictContains, dictInsert, broadcastPriceUpdate, fanOut,
      initState, scenarioRecs, round2]

/-- C1 witness: the reference-price branch at last=105, reference=102. -/
theorem change_percent_rule_witness :
    ∃ t, decodeTick [] 0 (.ltpcRec 105 0 (some 102)) "X" = some t ∧
      t.change_percent = round2 ((105 - 102) / 102 * 100) :=
  change_percent_rule.1 [] 0 0 "X" (.ltpcRec 105 0 (some 102)) 105 102 rfl
    (by decide)

/-- C2 counterexample: subscribing one fresh key from the fresh state
newly adds exactly that key, yet the call returns `None` — not the
newly-added subset — and an empty-keys call also returns `None`, not the
empty subset. -/
theorem subscribe_returns_none_counterexample :
    (subscribeStep initState ["NSE_INDEX|Nifty 50"]).2.1 =
      ["NSE_INDEX|Nifty 50"] ∧
    subscribeReturn initState ["NSE_INDEX|Nifty 50"] ≠
      some ["NSE_INDEX|Nifty 50"] ∧
    subscribeReturn initState [] ≠ some [] := by
  exact ⟨rfl, by decide, by decide⟩

/-- C2 (amended): `subscribe(keys)` adds the keys to the subscription set
and internally computes `new_keys` — exactly the subset of keys not
previously subscribed, which it hands to the upstream push — but the call
itself returns `None` to its caller; an empty input list is a no-op, also
returning `None`. -/
theorem subscribe_adds_and_returns_none :
    (∀ (s : EngineState) (keys : List String) (k : String),
        k ∈ (subscribeStep s keys).1.subscribed_instruments ↔
          k ∈ s.subscribed_instruments ∨ k ∈ keys) ∧
    (∀ (s : EngineState) (keys : List String) (k : String),
        k ∈ (subscribeStep s keys).2.1 ↔
          k ∈ keys ∧ k ∉ s.subscribed_instruments) ∧
    (∀ (s : EngineState) (keys : List String),
        subscribeReturn s keys = none) ∧
    (∀ s : EngineState, subscribeStep s [] = (s, [], none)) := by
  refine ⟨?_, ?_, ?_, ?_⟩
  · intro s keys k
    have h := (foldl_subAdd_mem keys s.subscribed_instruments [] k).1
    simpa [subscribeStep] using h
  · intro s keys k
    have h := (foldl_subAdd_mem keys s.subscribed_instruments [] k).2
    simpa [subscribeStep] using h
  · intro s keys; rfl
  · intro s; rfl

/-- C2 witness: subscribing a fresh key from the live state records it as
newly added. -/
theorem subscribe_adds_and_returns_none_witness :
    "NSE_EQ|INE009A01021" ∈ (subscribeStep sLive ["NSE_EQ|INE009A01021"]).2.1 ↔
      "NSE_EQ|INE009A01021" ∈ ["NSE_EQ|INE009A01021"] ∧
      "NSE_EQ|INE009A01021" ∉ sLive.subscribed_instruments :=
  subscribe_adds_and_returns_none.2.1 sLive ["NSE_EQ|INE009A01021"]
    "NSE_EQ|INE009A01021"

/-- C3: on the transition from disconnected to connected with a non-empty
subscription set, the engine marks the session connected, broadcasts one
`connected` status event, and sends exactly one subscription push upstream
carrying the full current subscription set. -/
theorem connect_pushes_full_set (s : EngineState)
    (h : s.subscribed_instruments ≠ []) :
    (onConnectSuccess s).1.upstox_connected = true ∧
    (onConnectSuccess s).1.ws_present = true ∧
    (onConnectSuccess s).2.1 =
      [("connected", "Connected to live NSE market")] ∧
    (onConnectSuccess s).2.2 = [s.subscribed_instruments] := by
  have hemp : s.subscribed_instruments.isEmpty = false := by
    cases hs : s.subscribed_instruments with
    | nil => exact absurd hs h
    | cons a l => rfl
  refine ⟨rfl, rfl, rfl, ?_⟩
  simp [onConnectSuccess, sendSubscriptionPayload, hemp]

/-- C3 witness: the connect transition from a disconnected state holding
one subscription. -/
theorem connect_pushes_full_set_witness :
    (onConnectSuccess
      { active_connections := []
        subscribed_instruments := ["NSE_INDEX|Nifty 50"]
        price_cache := []
        upstox_connected := false
        ws_present := false }).2.2 = [["NSE_INDEX|Nifty 50"]] :=
  (connect_pushes_full_set _ (List.cons_ne_nil _ _)).2.2.2

/-- C4: a subscribe call pushes upstream exactly the newly added keys when
some exist and the session is streaming; it pushes nothing when the session
is not streaming or when no key was newly added. -/
theorem subscribe_push_conditions (s : EngineState) (keys : List String) :
    ((subscribeStep s keys).2.1 ≠ [] → s.ws_present = true →
      s.upstox_connected = true →
      (subscribeStep s keys).2.2 = some (subscribeStep s keys).2.1) ∧
    (s.ws_present = false ∨ s.upstox_connected = false →
      (subscribeStep s keys).2.2 = none) ∧
    ((subscribeStep s keys).2.1 = [] → (subscribeStep s keys).2.2 = none) := by
  refine ⟨?_, ?_, ?_⟩
  · intro hnk hws hconn
    have hemp : (keys.foldl subAdd (s.subscribed_instruments, [])).2.isEmpty
        = false := by
      cases hs : (keys.foldl subAdd (s.subscribed_instruments, [])).2 with
      | nil => exact absurd (by simpa [subscribeStep] using hs) hnk
      | cons a l => rfl
    simp [subscribeStep, sendSubscriptionPayload, hemp, hws, hconn]
  · intro hdown
    rcases hdown with hws | hconn
    · simp [subscribeStep, hws]
    · simp [subscribeStep, hconn]
  · intro hnk
    have hemp : (keys.foldl subAdd (s.subscribed_instruments, [])).2.isEmpty
        = true := by
      simp [List.isEmpty_iff]
      simpa [subscribeStep] using hnk
    simp [subscribeStep, hemp]

/-- C4 witness: subscribing one fresh key while streaming pushes exactly
that key. -/
theorem subscribe_push_conditions_witness :
    (subscribeStep sLive ["NSE_EQ|INE009A01021"]).2.2 =
      some (subscribeStep sLive ["NSE_EQ|INE009A01021"]).2.1 :=
  (subscribe_push_conditions sLive ["NSE_EQ|INE009A01021"]).1
    (by decide) rfl rfl

/-- C5: the decoder drops malformed frames and records without a usable
last price without touching the state, emitting no tick, and every
exception raised by the frame body is caught rather than propagated to the
read loop. -/
theorem decoder_skips_and_catches (s : EngineState) (failing : List ℕ)
    (ts : ℕ) :
    (handleUpstoxBinary s failing ts .malformed = (s, [])) ∧
    (∀ (frame : Frame) (e : String), handleBinaryTry s failing ts frame =
      .error e → handleUpstoxBinary s failing ts frame = (s, [])) ∧
    (∀ (key : String) (rec : FeedRecord), extractQuote rec = none →
      processRecord s failing ts key rec = (s, none)) ∧
    (∀ (key : String) (rec : FeedRecord), extractQuote rec = none →
      handleUpstoxBinary s failing ts (.parsed [(key, rec)]) = (s, [])) := by
  refine ⟨rfl, ?_, ?_, ?_⟩
  · intro frame e herr
    simp [handleUpstoxBinary, herr]
  · intro key rec hx
    simp [processRecord, decodeTick, hx]
  · intro key rec hx
    simp [handleUpstoxBinary, handleBinaryTry, handleFeeds,
      processRecord, decodeTick, hx]

/-- C5 witness: a frame holding only an unrecognized record leaves the
live state unchanged and emits nothing. -/
theorem decoder_skips_and_catches_witness :
    handleUpstoxBinary sLive [] 0 (.parsed [("X", .otherRec)]) =
      (sLive, []) :=
  (decoder_skips_and_catches sLive [] 0).2.2.2 "X" .otherRec rfl

/-- C6: in one `broadcast_price_update`, every connection whose send fails
is removed from the active set, while every non-failing connection still
receives the message (failures do not abort the fan-out, which is a total
function). -/
theorem broadcast_prunes_failed (s : EngineState) (key : String)
    (tick : Tick) (failing : List ℕ) :
    ((broadcastPriceUpdate s key tick failing).2 =
      s.active_connections.filter (fun c => decide (c ∉ failing))) ∧
    (∀ c ∈ failing,
      c ∉ (broadcastPriceUpdate s key tick failing).1.active_connections) := by
  constructor
  · show (fanOut s.active_connections failing).1 = _
    rw [fanOut_eq_filter]
  · intro c hc
    show c ∉ (fanOut s.active_connections failing).2.foldl
      (fun conns x => conns.erase x) s.active_connections
    rw [fanOut_eq_filter]
    rw [← List.count_eq_zero, count_foldl_erase]
    rw [List.count_filter (by simpa using hc)]
    omega

/-- C6 witness: connection 1 fails and is pruned; connection 2 is still
delivered to. -/
theorem broadcast_prunes_failed_witness :
    ((broadcastPriceUpdate sLive "X" tickA [1]).2 =
      sLive.active_connections.filter (fun c => decide (c ∉ [1]))) ∧
    1 ∉ (broadcastPriceUpdate sLive "X" tickA [1]).1.active_connections :=
  ⟨(broadcast_prunes_failed sLive "X" tickA [1]).1,
   (broadcast_prunes_failed sLive "X" tickA [1]).2 1 (by decide)⟩

/-- C7 counterexample: on an explicit 401 authorization rejection the code
broadcasts status string `error`, not `auth_error` as the claim states. -/
theorem auth_status_counterexample :
    ((cycleFailureOutcome .authRejected401).statusEvents.map Prod.fst =
      ["error"]) ∧
    "auth_error" ∉ (cycleFailureOutcome .authRejected401).statusEvents.map
      Prod.fst := by
  exact ⟨rfl, by decide⟩

/-- C7 amended: on an explicit 401 authorization rejection the engine
broadcasts a status event with status `error` (message announcing expired
auth), a broadcast distinct from the `disconnected` status used for
transient failures, and backs off 60 seconds — strictly longer than the
5-second transient backoff — before retrying. -/
theorem auth_error_distinct_backoff :
    ((cycleFailureOutcome .authRejected401).statusEvents =
      [("error", "Market feed auth expired. Please re-login with Upstox.")]) ∧
    ((cycleFailureOutcome .transientException).statusEvents =
      [("disconnected", "Market feed disconnected - retrying...")]) ∧
    "error" ≠ "disconnected" ∧
    (cycleFailureOutcome .authRejected401).sleepSeconds = 60 ∧
    (cycleFailureOutcome .transientException).sleepSeconds = 5 ∧
    (cycleFailureOutcome .transientException).sleepSeconds <
      (cycleFailureOutcome .authRejected401).sleepSeconds := by
  exact ⟨rfl, rfl, by decide, rfl, rfl, by decide⟩

/-- C8: the price cache keeps at most one tick per instrument key (key
lists stay duplicate-free under any sequence of decoded-tick broadcasts),
and after any such sequence the stored tick for a key is the most recently
written one for that key, falling back to the prior cache value when the
sequence never wrote the key. -/
theorem cache_one_tick_last_write :
    (∀ (s : EngineState) (failing : List ℕ) (writes : List (String × Tick)),
        (cacheKeys s.price_cache).Nodup →
        (cacheKeys (runBroadcasts failing s writes).price_cache).Nodup) ∧
    (∀ (s : EngineState) (failing : List ℕ) (writes : List (String × Tick))
        (k : String),
        dictGet (runBroadcasts failing s writes).price_cache k =
          match lastValue writes k with
          | some v => some v
          | none => dictGet s.price_cache k) := by
  constructor
  · intro s failing writes
    induction writes generalizing s with
    | nil => exact fun h => h
    | cons w rest ih =>
      intro h
      obtain ⟨k, v⟩ := w
      show (cacheKeys (runBroadcasts failing
        (broadcastPriceUpdate s k v failing).1 rest).price_cache).Nodup
      refine ih _ ?_
      rw [broadcastPriceUpdate_cache]
      exact nodup_cacheKeys_dictInsert _ _ _ h
  · intro s failing writes
    induction writes generalizing s with
    | nil => intro k; rfl
    | cons w rest ih =>
      intro k
      obtain ⟨k', v⟩ := w
      show dictGet (runBroadcasts failing
        (broadcastPriceUpdate s k' v failing).1 rest).price_cache k = _
      rw [ih, broadcastPriceUpdate_cache, dictGet_dictInsert]
      cases hlv : lastValue rest k with
      | some v1 => simp [lastValue, hlv]
      | none =>
        by_cases hk : k' = k
        · simp [lastValue, hlv, hk]
        · simp [lastValue, hlv, hk]

/-- C8 witness: two successive writes to key X from the fresh state leave
the second tick cached, with duplicate-free keys. -/
theorem cache_one_tick_last_write_witness :
    (cacheKeys (runBroadcasts [] initState
      [("X", tickA), ("X", ⟨105, 0, some 102, 100, 0, 147/50⟩)]).price_cache).Nodup :=
  cache_one_tick_last_write.1 initState []
    [("X", tickA), ("X", ⟨105, 0, some 102, 100, 0, 147/50⟩)]
    (by simp [initState, cacheKeys])

/-- C9: `broadcast_status` delivers to every connection whose send does not
raise, swallows the failures, and leaves the active connection set — and
the whole state — exactly as it was. -/
theorem status_broadcast_keeps_connections (s : EngineState)
    (status message : String) (failing : List ℕ) :
    (broadcastStatus s status message failing).1 = s ∧
    (broadcastStatus s status message failing).1.active_connections =
      s.active_connections ∧
    (broadcastStatus s status message failing).2 =
      s.active_connections.filter (fun c => decide (c ∉ failing)) :=
  ⟨rfl, rfl, rfl⟩

/-- C10: `broadcast_price_update` writes the tick into the price cache
unconditionally — whatever the registered connections are and whichever
sends fail, the cache entry for the key afterwards is the broadcast tick. -/
theorem cache_written_unconditionally (s : EngineState) (key : String)
    (tick : Tick) (failing : List ℕ) :
    (broadcastPriceUpdate s key tick failing).1.price_cache =
      dictInsert s.price_cache key tick ∧
    dictGet (broadcastPriceUpdate s key tick failing).1.price_cache key =
      some tick := by
  refine ⟨rfl, ?_⟩
  rw [broadcastPriceUpdate_cache, dictGet_dictInsert, if_pos rfl]

/-- C9 witness: a concrete status broadcast with a failing connection
leaves the live state untouched. -/
theorem status_broadcast_keeps_connections_witness :
    (broadcastStatus sLive "connected" "Connected to live NSE market"
      [1]).1 = sLive :=
  (status_broadcast_keeps_connections sLive "connected"
    "Connected to live NSE market" [1]).1

/-- C10 witness: the cache holds the broadcast tick even when every send
fails. -/
theorem cache_written_unconditionally_witness :
    dictGet (broadcastPriceUpdate sLive "X" tickA [1, 2]).1.price_cache "X" =
      some tickA :=
  (cache_written_unconditionally sLive "X" tickA [1, 2]).2

end AstraTrade
